import Mathlib

set_option maxHeartbeats 1000000

namespace FolioUserImport

/-! Shallow embedding of the folio-user-import pipeline
(src/src/index.js, second revision, lines 527 to 1150 of the packed file;
all line numbers below refer to that file). -/

/-- Truthiness of an optional JS string value as tested by the source
(for example the test if (user.patronGroup)): an absent field (undefined)
and the empty string are falsy, every other string is truthy. -/
def truthy : Option String → Bool
  | none => false
  | some s => if s = "" then false else true

/-- Models the batching loop of processUsers (lines 754 to 764):
while (data.length) userData.push(data.splice(0, folioPageSize)).
JS splice coerces the delete count to an integer and clamps negative counts
to 0, hence Int.toNat. The loop is given explicit fuel; a run that does not
finish within the fuel yields none, so divergence shows up as none for
every fuel value. -/
def partitionFuel (fuel : Nat) (p : Int) (l : List α) : Option (List (List α)) :=
  match fuel with
  | 0 => if l.isEmpty then some [] else none
  | fuel + 1 =>
    if l.isEmpty then some []
    else
      match partitionFuel fuel p (l.drop p.toNat) with
      | some bs => some (l.take p.toNat :: bs)
      | none => none

/-- An address inside the personal block of an input record; only the
addressTypeId field is consumed by the translation code (lines 1129 to 1141). -/
structure Address where
  addressTypeId : Option String
  deriving DecidableEq

/-- The personal block of an input record (lines 1121 to 1143). -/
structure Personal where
  preferredContactTypeId : Option String
  addresses : Option (List Address)
  deriving DecidableEq

/-- An input user record as consumed by the pipeline. The id field is absent
on input and is assigned either from the remote search result (line 836) or
freshly generated before creation (line 907). -/
structure User where
  username : String
  externalSystemId : String
  id : Option String
  patronGroup : Option String
  personal : Option Personal
  deriving DecidableEq

/-- A record returned by the remote user search; only externalSystemId and id
are consumed by the reconciliation code (lines 833 to 838). -/
structure RemoteUser where
  externalSystemId : String
  id : String
  deriving DecidableEq

/-- A reference table: the JS objects patronGroups and addressTypes map a
human readable name to a service id. Modelled as an association list with
first-match lookup. -/
def Table : Type := List (String × String)

/-- JS object property read on a reference table: undefined when absent. -/
def tlookup (t : Table) (k : String) : Option String :=
  match t with
  | [] => none
  | kv :: rest => if kv.1 = k then some kv.2 else tlookup rest k

/-- The static preferred contact type table of the source (lines 570 to 576). -/
def preferredContactTypes : Table :=
  [("mail", "001"), ("email", "002"), ("text", "003"), ("phone", "004"), ("mobile", "005")]

/-- The shared translation pattern of mapUserData for the patronGroup field
(lines 1113 to 1119) and the preferredContactTypeId field (lines 1122 to 1128):
when the field is truthy, a truthy table entry replaces it and a missing or
falsy entry deletes it; a falsy field is left untouched. -/
def mapRefField (t : Table) (v : Option String) : Option String :=
  match v with
  | none => none
  | some s =>
    if s = "" then some s
    else
      match tlookup t s with
      | some id => if id = "" then none else some id
      | none => none

/-- The address translation loop of mapUserData (lines 1129 to 1141): an
address whose addressTypeId is falsy or not found in the table is dropped
from the output list; a found one is rewritten to the table id and kept. -/
def mapAddresses (t : Table) (l : List Address) : List Address :=
  l.filterMap (fun a =>
    match a.addressTypeId with
    | none => none
    | some s =>
      if s = "" then none
      else
        match tlookup t s with
        | some id => if id = "" then none else some { a with addressTypeId := some id }
        | none => none)

/-- Translation of the personal block by mapUserData (lines 1121 to 1143).
The address list is only rewritten when it is present and nonempty. -/
def mapPersonal (addressTypesT : Table) (p : Personal) : Personal :=
  { p with
    preferredContactTypeId := mapRefField preferredContactTypes p.preferredContactTypeId,
    addresses :=
      match p.addresses with
      | none => none
      | some l => if 0 < l.length then some (mapAddresses addressTypesT l) else some l }

/-- mapUserData (lines 1111 to 1146). In the source the function mutates the
received record in place and ends with return user, so this function gives
both the returned value and the content of the callers record after the call. -/
def mapUserData (addressTypesT patronGroupsT : Table) (u : User) : User :=
  { u with
    patronGroup := mapRefField patronGroupsT u.patronGroup,
    personal := u.personal.map (mapPersonal addressTypesT) }

/-- The content of the record the caller passed in, observed after the call to
mapUserData. The source assigns to fields of the argument (for example
delete user.patronGroup, user.patronGroup = ...) and returns the very same
object, so the post-call argument content equals the returned record. -/
def mapUserDataPostArg (addressTypesT patronGroupsT : Table) (u : User) : User :=
  mapUserData addressTypesT patronGroupsT u

/-- Decidable test that a record carries no truthy reference field for
mapUserData to translate: no truthy patronGroup, and when the personal block
is present, no truthy preferredContactTypeId and no nonempty address list. -/
def noRefFields (u : User) : Bool :=
  !truthy u.patronGroup &&
    (match u.personal with
     | none => true
     | some p =>
       !truthy p.preferredContactTypeId &&
         (match p.addresses with
          | none => true
          | some l => l.isEmpty))

/-- JS object property assignment userMap[k] = v as used by the reduce in
importUsers (lines 828 to 831): an existing key keeps its position and
receives the new value, a new key is appended. -/
def jsObjectSet : List (String × User) → String → User → List (String × User)
  | [], k, v => [(k, v)]
  | kv :: rest, k, v =>
    if kv.1 = k then (k, v) :: rest else kv :: jsObjectSet rest k v

/-- The userMap built by importUsers (lines 828 to 831): the batch is keyed
by externalSystemId, a later record with the same key replacing the earlier
value. -/
def buildUserMap (l : List User) : List (String × User) :=
  l.foldl (fun m u => jsObjectSet m u.externalSystemId u) []

/-- One step of the forEach over the remote search result (lines 833 to 838):
the remote id is written into the map entry whose key equals the remote
externalSystemId; a remote record with no matching key changes nothing. -/
def setRemoteId (m : List (String × User)) (r : RemoteUser) : List (String × User) :=
  m.map (fun kv =>
    if kv.1 = r.externalSystemId then (kv.1, { kv.2 with id := some r.id }) else kv)

/-- The map that importUsers dispatches from (lines 826 to 846): the keyed
batch with the remote ids of all matching remote records written in, in
response order. The async.each at line 841 iterates exactly its values and
classifies each one by the truthiness of its id field. -/
def classifyUsers (batch : List User) (remote : List RemoteUser) : List (String × User) :=
  remote.foldl setRemoteId (buildUserMap batch)

/-- First-match lookup in the keyed map (keys are unique by construction). -/
def lookupKey : List (String × User) → String → Option User
  | [], _ => none
  | kv :: rest, k => if kv.1 = k then some kv.2 else lookupKey rest k

/-- The last element of a list satisfying a predicate, if any. Used to state
the last-write-wins behaviour of the JS object assignments. -/
def lastWhere (p : α → Bool) : List α → Option α
  | [] => none
  | x :: rest =>
    match lastWhere p rest with
    | some r => some r
    | none => if p x then some x else none

/-- The accumulated effect of the remote forEach on one map value with key k:
every matching remote record overwrites the id in order, so the last match
wins (lines 833 to 838). -/
def applyRemote (u : User) (k : String) (remote : List RemoteUser) : User :=
  remote.foldl
    (fun v r => if r.externalSystemId = k then { v with id := some r.id } else v) u

/-! The compensating creator (createUser, createCredentials,
applyEmptyPermissionSet, deleteUser, removeUserCredentials; lines 906 to 1090)
is modelled as a trace of remote calls and failure markings plus the final
invocation of the per-record async callback. -/

/-- Observable events of one record operation: the remote calls it issues and
the logger.warn lines that mark the record as failed. -/
inductive Ev where
  | callCreateUser (id : String)
  | callCreateCred (username : String)
  | callApplyPerms (username : String)
  | callDeleteCred (username : String)
  | callDeleteUser (idPath : String)
  | callUpdateUser (idPath : String)
  | warnFailed (stage : String)
  deriving DecidableEq

/-- How the per-record async callback ends: invoked with no error (ok),
invoked with an error (err, which async propagates and which aborts the
enclosing eachLimit loop), or never invoked because an uncaught TypeError
killed the process (crash). -/
inductive Res where
  | ok
  | err
  | crash
  deriving DecidableEq

/-- The remote responses one record can encounter, by HTTP status code, plus
the freshly generated id uuidv1() of line 907. -/
structure RecordEnv where
  createStatus : Nat
  credStatus : Nat
  permsStatus : Nat
  delCredStatus : Nat
  delUserStatus : Nat
  updateStatus : Nat
  newId : String
  deriving DecidableEq

/-- The failure test applied to every statusCode in the source:
statusCode > 299 or statusCode < 200 (for example line 921). -/
def statusFail (s : Nat) : Bool := decide (299 < s) || decide (s < 200)

/-- The string JS produces for the URL fragment user.id when building
/users/ + user.id: the text undefined when the field is absent. -/
def idPathOf (u : User) : String :=
  match u.id with
  | some s => s
  | none => "undefined"

/-- deleteUser (lines 1029 to 1059) invoked with proper (user, callback)
arguments: one DELETE /users/{id} call; a failing status warns and invokes
the callback with an error, a successful one invokes it with none. -/
def deleteUserRun (idPath : String) (s : Nat) : List Ev × Res :=
  if statusFail s then ([.callDeleteUser idPath, .warnFailed "deleteUser"], .err)
  else ([.callDeleteUser idPath], .ok)

/-- deleteUser as invoked from the createCredentials failure branch
(line 964, deleteUser(callback)): the source omits the user argument, so
user is bound to the callback function, user.id is undefined and the DELETE
is addressed at /users/undefined; on response end both branches then invoke
the undefined callback parameter, and the resulting TypeError (raised again
inside the catch handler) is uncaught and kills the process. -/
def deleteUserArityBugRun (s : Nat) : List Ev × Res :=
  if statusFail s then ([.callDeleteUser "undefined", .warnFailed "deleteUser"], .crash)
  else ([.callDeleteUser "undefined"], .crash)

/-- removeUserCredentials (lines 1061 to 1090) together with the anonymous
rollback continuation of applyEmptyPermissionSet (lines 1002 to 1009): one
DELETE /authn/credentials/{username} call; on success the continuation calls
deleteUser(user, finalCallback); on failure the continuation is invoked with
only the error, its own callback parameter is undefined, and invoking it
raises an uncaught TypeError that kills the process. -/
def removeUserCredentialsRun (username idPath : String)
    (delCredStatus delUserStatus : Nat) : List Ev × Res :=
  if statusFail delCredStatus then
    ([.callDeleteCred username, .warnFailed "deleteCredentials"], .crash)
  else
    let rest := deleteUserRun idPath delUserStatus
    (.callDeleteCred username :: rest.1, rest.2)

/-- applyEmptyPermissionSet (lines 987 to 1027): one POST /perms/users call;
a failing status warns (the failure marking) and starts the rollback,
a successful one invokes the record callback with no error. -/
def applyEmptyPermissionSetRun (e : RecordEnv) (u : User) : List Ev × Res :=
  if statusFail e.permsStatus then
    let rest := removeUserCredentialsRun u.username (idPathOf u) e.delCredStatus e.delUserStatus
    (.callApplyPerms u.username :: .warnFailed "permissions" :: rest.1, rest.2)
  else ([.callApplyPerms u.username], .ok)

/-- createCredentials (lines 949 to 985): one POST /authn/credentials call;
a failing status warns and calls deleteUser(callback) (the arity bug),
a successful one proceeds to applyEmptyPermissionSet. -/
def createCredentialsRun (e : RecordEnv) (u : User) : List Ev × Res :=
  if statusFail e.credStatus then
    let rest := deleteUserArityBugRun e.delUserStatus
    (.callCreateCred u.username :: .warnFailed "credentials" :: rest.1, rest.2)
  else
    let rest := applyEmptyPermissionSetRun e u
    (.callCreateCred u.username :: rest.1, rest.2)

/-- createUser (lines 906 to 942): assign the freshly generated id, translate
the record with mapUserData, then one POST /users call; a failing status
warns and invokes the record callback with no error (the commented-out
callback(new Error ...) of line 923 shows the deliberate choice), a
successful one proceeds to createCredentials. -/
def createUserRun (addressTypesT patronGroupsT : Table) (e : RecordEnv) (u : User) :
    List Ev × Res :=
  let v := mapUserData addressTypesT patronGroupsT { u with id := some e.newId }
  if statusFail e.createStatus then
    ([.callCreateUser e.newId, .warnFailed "create"], .ok)
  else
    let rest := createCredentialsRun e v
    (.callCreateUser e.newId :: rest.1, rest.2)

/-- updateUser (lines 863 to 899): translate the record, then one PUT
/users/{id} call; a failing status warns and invokes the record callback
with no error (comment at line 881: this way if one user save fails it
will not affect the creation or update of the other users). -/
def updateUserRun (addressTypesT patronGroupsT : Table) (e : RecordEnv) (u : User) :
    List Ev × Res :=
  let v := mapUserData addressTypesT patronGroupsT u
  if statusFail e.updateStatus then
    ([.callUpdateUser (idPathOf v), .warnFailed "update"], .ok)
  else ([.callUpdateUser (idPathOf v)], .ok)

/-- The per-record dispatch of importUsers (lines 841 to 846): a truthy id
sends the record to updateUser, otherwise to createUser. -/
def processRecord (addressTypesT patronGroupsT : Table) (e : RecordEnv) (u : User) :
    List Ev × Res :=
  if truthy u.id then updateUserRun addressTypesT patronGroupsT e u
  else createUserRun addressTypesT patronGroupsT e u

/-- The remote environment of one batch: the parsed user search response of
searchUsers (none models a JSON parse failure of the response, the one
failure path of lines 806 to 812, which invokes the batch callback with the
error), and the per-record remote responses keyed by externalSystemId. -/
structure BatchEnv where
  searchParse : Option (List RemoteUser)
  recordEnv : String → RecordEnv

/-- searchUsers followed by importUsers for one batch (lines 781 to 856):
none models the batch-level parse failure; otherwise every value of the
keyed map is processed and its events and callback result collected.
The async.each of line 841 starts all records of a batch, so all sibling
results are listed even when one of them fails. -/
def processBatch (addressTypesT patronGroupsT : Table) (be : BatchEnv) (batch : List User) :
    Option (List (String × (List Ev × Res))) :=
  match be.searchParse with
  | none => none
  | some remote =>
    some ((classifyUsers batch remote).map
      (fun kv => (kv.1, processRecord addressTypesT patronGroupsT (be.recordEnv kv.1) kv.2)))

/-- The report the run produces for one batch. -/
inductive BatchReport where
  | parseFailed (batch : List User)
  | done (results : List (String × (List Ev × Res)))
  deriving DecidableEq

/-- Decidable test that some record of a batch ended with the given result. -/
def hasRes (r : Res) (results : List (String × (List Ev × Res))) : Bool :=
  results.any (fun x => decide (x.2.2 = r))

/-- The async.eachLimit(userData, 1, searchUsers, ...) driver of processUsers
(lines 766 to 772): batches run strictly one after the other; a batch whose
callback receives an error stops the loop (async invokes the final callback
with the error and schedules no further batch), and an uncaught TypeError
(crash) kills the process, so in both cases no later batch is processed. -/
def runAll (addressTypesT patronGroupsT : Table) :
    List (BatchEnv × List User) → List BatchReport
  | [] => []
  | (be, b) :: rest =>
    match processBatch addressTypesT patronGroupsT be b with
    | none => [.parseFailed b]
    | some results =>
      if hasRes .crash results || hasRes .err results then [.done results]
      else .done results :: runAll addressTypesT patronGroupsT rest

/-- Event discriminators used to state ordering properties of a trace. -/
def isCallDeleteCred : Ev → Bool
  | .callDeleteCred _ => true
  | _ => false

/-- True exactly on record-delete calls. -/
def isCallDeleteUser : Ev → Bool
  | .callDeleteUser _ => true
  | _ => false

/-- True exactly on the logger.warn events that mark a record as failed. -/
def isWarnFailed : Ev → Bool
  | .warnFailed _ => true
  | _ => false

/-- True exactly on batch reports that carry per-record results. -/
def isDoneReport : BatchReport → Bool
  | .done _ => true
  | .parseFailed _ => false

/-! Concrete sample data used by witnesses and counterexamples. -/

/-- A plain to-create record with no reference fields. -/
def aliceUser : User :=
  { username := "alice", externalSystemId := "e1", id := none,
    patronGroup := none, personal := none }

/-- A second plain to-create record. -/
def bobUser : User :=
  { username := "bob", externalSystemId := "e2", id := none,
    patronGroup := none, personal := none }

/-- A third plain to-create record. -/
def carolUser : User :=
  { username := "carol", externalSystemId := "e3", id := none,
    patronGroup := none, personal := none }

/-- A fourth plain to-create record, used as the second batch. -/
def daveUser : User :=
  { username := "dave", externalSystemId := "e4", id := none,
    patronGroup := none, personal := none }

/-- A record whose preferred contact type name resolves in the static table. -/
def emailUser : User :=
  { username := "erin", externalSystemId := "e5", id := none,
    patronGroup := none,
    personal := some { preferredContactTypeId := some "email", addresses := none } }

/-- A record with a resolvable patron group name. -/
def staffUser : User :=
  { username := "fred", externalSystemId := "e6", id := none,
    patronGroup := some "staff", personal := none }

/-- A record environment in which every remote call succeeds. -/
def allOkEnv : RecordEnv :=
  { createStatus := 201, credStatus := 201, permsStatus := 201,
    delCredStatus := 204, delUserStatus := 204, updateStatus := 204, newId := "id-0" }

/-- Responses for a record whose credential creation fails. -/
def credFailEnv : RecordEnv :=
  { allOkEnv with credStatus := 500, newId := "id-1" }

/-- Responses for a record whose permission attachment fails and whose
rollback deletes both succeed. -/
def permsFailEnv : RecordEnv :=
  { allOkEnv with permsStatus := 500, newId := "id-1" }

/-- Responses for a record whose permission attachment fails and whose
record-delete rollback also fails. -/
def permsFailDeleteFailEnv : RecordEnv :=
  { allOkEnv with permsStatus := 500, delUserStatus := 500, newId := "id-2" }

/-- Per-record responses for a three-record batch whose second record fails
credential creation while its siblings succeed. -/
def isolationRecordEnv : String → RecordEnv := fun k =>
  if k = "e1" then { allOkEnv with newId := "id-1" }
  else if k = "e2" then { allOkEnv with credStatus := 500, newId := "id-2" }
  else { allOkEnv with newId := "id-3" }

/-- Batch environment for the credential-failure isolation scenario. -/
def isolationBatch1Env : BatchEnv :=
  { searchParse := some [], recordEnv := isolationRecordEnv }

/-- Per-record responses for a three-record batch whose second record fails
permission attachment and then also fails the record-delete rollback. -/
def isolation2RecordEnv : String → RecordEnv := fun k =>
  if k = "e1" then { allOkEnv with newId := "id-1" }
  else if k = "e2" then permsFailDeleteFailEnv
  else { allOkEnv with newId := "id-3" }

/-- Batch environment for the failed-compensation isolation scenario. -/
def isolation2Batch1Env : BatchEnv :=
  { searchParse := some [], recordEnv := isolation2RecordEnv }

/-- A second, fully successful batch environment. -/
def secondBatchEnv : BatchEnv :=
  { searchParse := some [], recordEnv := fun _ => { allOkEnv with newId := "id-4" } }

/-- A batch environment whose user search response fails to parse. -/
def parseFailBatchEnv : BatchEnv :=
  { searchParse := none, recordEnv := fun _ => allOkEnv }

/-! Theorems. First the batch partitioner (claims C5 and C6). -/

theorem partitionFuel_nil (fuel : Nat) (p : Int) :
    partitionFuel fuel p ([] : List α) = some [] := by
  cases fuel <;> simp [partitionFuel]

theorem ceilDiv_step (q n : Nat) (hq : 0 < q) (hn : 0 < n) :
    (n + q - 1) / q = (n - q + q - 1) / q + 1 := by
  rcases le_or_lt n q with h | h
  · have h0 : n - q = 0 := by omega
    have h1 : n + q - 1 = n - 1 + q := by omega
    have h2 : n - q + q - 1 = q - 1 := by omega
    rw [h1, Nat.add_div_right _ hq, h2,
      Nat.div_eq_of_lt (by omega), Nat.div_eq_of_lt (by omega)]
  · have h1 : n + q - 1 = n - 1 + q := by omega
    have h2 : n - 1 = n - q - 1 + q := by omega
    have h3 : n - q + q - 1 = n - q - 1 + q := by omega
    rw [h1, Nat.add_div_right _ hq, h2, Nat.add_div_right _ hq,
      h3, Nat.add_div_right _ hq]

theorem partitionFuel_spec (p : Int) (hp : 0 < p) :
    ∀ (fuel : Nat) (l : List α), l.length ≤ fuel →
      ∃ bs, partitionFuel fuel p l = some bs ∧
        bs.join = l ∧
        bs.length = (l.length + p.toNat - 1) / p.toNat ∧
        (∀ b ∈ bs.dropLast, b.length = p.toNat) ∧
        (∀ b ∈ bs, b.length ≤ p.toNat ∧ b ≠ []) := by
  have hq : 0 < p.toNat := by omega
  intro fuel
  induction fuel with
  | zero =>
    intro l hl
    have hnil : l = [] := List.eq_nil_of_length_eq_zero (Nat.le_zero.mp hl)
    subst hnil
    refine ⟨[], by simp [partitionFuel], by simp, ?_, by simp, by simp⟩
    simp [Nat.div_eq_of_lt (by omega : p.toNat - 1 < p.toNat)]
  | succ n ih =>
    intro l hl
    by_cases hnil : l = []
    · subst hnil
      refine ⟨[], by simp [partitionFuel], by simp, ?_, by simp, by simp⟩
      simp [Nat.div_eq_of_lt (by omega : p.toNat - 1 < p.toNat)]
    · have hlen : 0 < l.length := List.length_pos.mpr hnil
      have hdrop : (l.drop p.toNat).length ≤ n := by
        rw [List.length_drop]; omega
      obtain ⟨bs, hbs, hjoin, hcount, hinit, hall⟩ := ih (l.drop p.toNat) hdrop
      have hne : l.isEmpty = false := by
        cases l with
        | nil => exact absurd rfl hnil
        | cons a t => rfl
      refine ⟨l.take p.toNat :: bs, ?_, ?_, ?_, ?_, ?_⟩
      · simp [partitionFuel, hne, hbs]
      · simp [List.join, hjoin]
      · simp only [List.length_cons, hcount, List.length_drop]
        exact (ceilDiv_step p.toNat l.length hq hlen).symm
      · cases bs with
        | nil => simp
        | cons c t =>
          have hcne : c ≠ [] := (hall c (by simp)).2
          have hdropne : l.drop p.toNat ≠ [] := by
            intro habs
            rw [habs] at hjoin
            have : c = [] := by
              cases c with
              | nil => rfl
              | cons x xs => simp [List.join] at hjoin
            exact hcne this
          have hlt : p.toNat < l.length := by
            by_contra hge
            exact hdropne (List.drop_eq_nil_of_le (by omega))
          intro b hb
          rw [List.dropLast_cons₂] at hb
          rcases List.mem_cons.mp hb with hb | hb
          · subst hb
            rw [List.length_take]
            omega
          · exact hinit b hb
      · intro b hb
        rcases List.mem_cons.mp hb with hb | hb
        · subst hb
          constructor
          · rw [List.length_take]; omega
          · intro habs
            have hlen2 := congrArg List.length habs
            rw [List.length_take] at hlen2
            simp only [List.length_nil] at hlen2
            omega
        · exact hall b hb

/-- C5: for every record list and every positive page size p, the splice
loop of processUsers terminates within length-many iterations and yields
ceil(n divided by p) batches whose concatenation is the input in order, all
batches but the last holding exactly p records and every batch nonempty
with at most p records. -/
theorem partition_correct (p : Int) (hp : 0 < p) (l : List User) :
    ∃ bs, partitionFuel l.length p l = some bs ∧
      bs.join = l ∧
      bs.length = (l.length + p.toNat - 1) / p.toNat ∧
      (∀ b ∈ bs.dropLast, b.length = p.toNat) ∧
      (∀ b ∈ bs, b.length ≤ p.toNat ∧ b ≠ []) :=
  partitionFuel_spec p hp l.length l (Nat.le_refl _)

/-- Witness for C5 at page size 2 and a three-record list. -/
theorem partition_correct_witness :
    (0 : Int) < 2 ∧
      ∃ bs, partitionFuel ([aliceUser, bobUser, carolUser] : List User).length 2
          [aliceUser, bobUser, carolUser] = some bs ∧
        bs.join = [aliceUser, bobUser, carolUser] ∧
        bs.length = (([aliceUser, bobUser, carolUser] : List User).length +
            (2 : Int).toNat - 1) / (2 : Int).toNat ∧
        (∀ b ∈ bs.dropLast, b.length = (2 : Int).toNat) ∧
        (∀ b ∈ bs, b.length ≤ (2 : Int).toNat ∧ b ≠ []) :=
  ⟨by decide, partition_correct 2 (by decide) [aliceUser, bobUser, carolUser]⟩

/-- C6: a nonpositive page size makes the splice loop of processUsers remove
nothing per iteration, so on any nonempty record list the loop never
terminates, whatever fuel it is granted; no validation error is reported. -/
theorem partition_nonpositive_diverges (p : Int) (hp : p ≤ 0) (l : List User)
    (hl : l ≠ []) (fuel : Nat) : partitionFuel fuel p l = none := by
  have h0 : p.toNat = 0 := by omega
  have hne : l.isEmpty = false := by
    cases l with
    | nil => exact absurd rfl hl
    | cons a t => rfl
  induction fuel with
  | zero => simp [partitionFuel, hne]
  | succ n ih => simp [partitionFuel, hne, h0, ih]

/-- Witness for C6 at page size 0, a one-record list and fuel 5. -/
theorem partition_nonpositive_diverges_witness :
    (0 : Int) ≤ 0 ∧ ([aliceUser] : List User) ≠ [] ∧
      partitionFuel 5 0 [aliceUser] = none :=
  ⟨by decide, by decide,
    partition_nonpositive_diverges 0 (by decide) [aliceUser] (by decide) 5⟩

/-! Record materializer (claims C8 and C9). -/

theorem mapRefField_of_not_truthy (t : Table) (v : Option String)
    (h : truthy v = false) : mapRefField t v = v := by
  cases v with
  | none => rfl
  | some s =>
    have hs : s = "" := by
      by_contra hne
      simp [truthy, hne] at h
    subst hs
    simp [mapRefField]

theorem mapUserData_eq_self (tA tP : Table) (u : User)
    (h : noRefFields u = true) : mapUserData tA tP u = u := by
  obtain ⟨un, ext, uid, pg, per⟩ := u
  cases per with
  | none =>
    simp only [noRefFields, Bool.and_eq_true, Bool.not_eq_true'] at h
    simp [mapUserData, mapRefField_of_not_truthy _ _ h.1]
  | some p =>
    obtain ⟨pc, pa⟩ := p
    cases pa with
    | none =>
      simp only [noRefFields, Bool.and_eq_true, Bool.not_eq_true'] at h
      simp [mapUserData, mapPersonal, mapRefField_of_not_truthy _ _ h.1,
        mapRefField_of_not_truthy _ _ h.2.1]
    | some l =>
      cases l with
      | nil =>
        simp only [noRefFields, Bool.and_eq_true, Bool.not_eq_true'] at h
        simp [mapUserData, mapPersonal, mapRefField_of_not_truthy _ _ h.1,
          mapRefField_of_not_truthy _ _ h.2.1]
      | cons a rest =>
        exfalso
        simp [noRefFields, List.isEmpty] at h

/-- C8 counterexample: on a record whose preferred contact type name resolves
in the static table, a second application of mapUserData looks the translated
code up as if it were a name, fails, and deletes the field, so materialize
applied to its own output differs from a single application. -/
theorem mapUserData_not_idempotent :
    mapUserData [] [] (mapUserData [] [] emailUser) ≠ mapUserData [] [] emailUser := by
  decide

/-- C8 amended: mapUserData is idempotent on records that carry no truthy
reference field to translate (it then returns the record unchanged); on a
record with a translatable field the second application re-looks-up or
deletes the already translated value, so idempotence fails in general. -/
theorem mapUserData_idempotent_on_noRefFields (tA tP : Table) (u : User)
    (h : noRefFields u = true) :
    mapUserData tA tP (mapUserData tA tP u) = mapUserData tA tP u := by
  have he := mapUserData_eq_self tA tP u h
  rw [he, he]

/-- Witness for the amended C8 on a record with no reference fields. -/
theorem mapUserData_idempotent_witness :
    noRefFields aliceUser = true ∧
      mapUserData [] [] (mapUserData [] [] aliceUser) = mapUserData [] [] aliceUser :=
  ⟨by decide, mapUserData_idempotent_on_noRefFields [] [] aliceUser (by decide)⟩

/-- C9 counterexample: mapUserData mutates the record it receives; after the
call the callers record holds the translated patron group id, not the name it
held before, so the original record is not left unchanged. -/
theorem mapUserData_mutates_received :
    mapUserDataPostArg [] [("staff", "grp-uuid-1")] staffUser ≠ staffUser := by
  decide

/-- C9 amended: mapUserData translates the record in place (the record the
caller holds after the call is exactly the returned, translated record), and
it modifies only the patron group, preferred contact type and address list
fields: username, externalSystemId and id are unchanged. -/
theorem mapUserData_modifies_only_reference_fields (tA tP : Table) (u : User) :
    mapUserDataPostArg tA tP u = mapUserData tA tP u ∧
    (mapUserData tA tP u).username = u.username ∧
    (mapUserData tA tP u).externalSystemId = u.externalSystemId ∧
    (mapUserData tA tP u).id = u.id :=
  ⟨rfl, rfl, rfl, rfl⟩

/-! Keyed map machinery of importUsers (claims C7 and C10). -/

theorem mapCongrMem {f g : α → β} :
    ∀ (l : List α), (∀ a ∈ l, f a = g a) → l.map f = l.map g := by
  intro l
  induction l with
  | nil => intro _; rfl
  | cons a t ih =>
    intro h
    simp only [List.map_cons]
    rw [h a (List.mem_cons_self _ _), ih (fun b hb => h b (List.mem_cons_of_mem _ hb))]

theorem lookupKey_jsObjectSet (m : List (String × User)) (k k2 : String) (v : User) :
    lookupKey (jsObjectSet m k v) k2 = if k = k2 then some v else lookupKey m k2 := by
  induction m with
  | nil => simp [jsObjectSet, lookupKey]
  | cons kv rest ih =>
    by_cases h : kv.1 = k
    · subst h
      simp only [jsObjectSet, if_pos rfl, lookupKey]
      by_cases h2 : kv.1 = k2 <;> simp [h2]
    · simp only [jsObjectSet, if_neg h, lookupKey]
      by_cases h2 : kv.1 = k2
      · have hkk : ¬k = k2 := fun he => h (by rw [h2, he])
        simp [h2, hkk]
      · simp [h2, ih]

theorem keys_jsObjectSet (m : List (String × User)) (k : String) (v : User) :
    (jsObjectSet m k v).map (fun kv => kv.1) =
      if k ∈ m.map (fun kv => kv.1) then m.map (fun kv => kv.1)
      else m.map (fun kv => kv.1) ++ [k] := by
  induction m with
  | nil => simp [jsObjectSet]
  | cons kv rest ih =>
    by_cases h : kv.1 = k
    · subst h
      simp [jsObjectSet]
    · have hk : ¬k = kv.1 := fun he => h he.symm
      simp only [jsObjectSet, if_neg h, List.map_cons, ih, List.mem_cons]
      by_cases h2 : k ∈ rest.map (fun kv => kv.1)
      · simp [h2, hk]
      · simp [h2, hk]

theorem keys_nodup_buildUserMap (l : List User) :
    ((buildUserMap l).map (fun kv => kv.1)).Nodup := by
  suffices haux : ∀ (acc : List (String × User)), (acc.map (fun kv => kv.1)).Nodup →
      ((l.foldl (fun m u => jsObjectSet m u.externalSystemId u) acc).map
        (fun kv => kv.1)).Nodup by
    exact haux [] (by simp)
  induction l with
  | nil => intro acc ha; simpa using ha
  | cons u t ih =>
    intro acc ha
    simp only [List.foldl_cons]
    apply ih
    rw [keys_jsObjectSet]
    by_cases h2 : u.externalSystemId ∈ acc.map (fun kv => kv.1)
    · simpa [h2] using ha
    · rw [if_neg h2]
      have hperm := List.perm_append_singleton u.externalSystemId (acc.map (fun kv => kv.1))
      rw [hperm.nodup_iff]
      exact List.nodup_cons.mpr ⟨h2, ha⟩

theorem lookupKey_foldl_jsObjectSet (l : List User) :
    ∀ (acc : List (String × User)) (k : String),
      lookupKey (l.foldl (fun m u => jsObjectSet m u.externalSystemId u) acc) k =
        match lastWhere (fun u => decide (u.externalSystemId = k)) l with
        | some u => some u
        | none => lookupKey acc k := by
  induction l with
  | nil => intro acc k; simp [lastWhere]
  | cons u t ih =>
    intro acc k
    simp only [List.foldl_cons, lastWhere]
    rw [ih]
    cases hlw : lastWhere (fun u => decide (u.externalSystemId = k)) t with
    | some r => simp
    | none =>
      rw [lookupKey_jsObjectSet]
      by_cases hu : u.externalSystemId = k
      · simp [hu]
      · simp [hu]

theorem lookupKey_buildUserMap (l : List User) (k : String) :
    lookupKey (buildUserMap l) k =
      lastWhere (fun u => decide (u.externalSystemId = k)) l := by
  simp only [buildUserMap]
  rw [lookupKey_foldl_jsObjectSet]
  cases lastWhere (fun u => decide (u.externalSystemId = k)) l <;> simp [lookupKey]

theorem lookupKey_mapValues (m : List (String × User)) (f : String → User → User)
    (k : String) :
    lookupKey (m.map (fun kv => (kv.1, f kv.1 kv.2))) k = (lookupKey m k).map (f k) := by
  induction m with
  | nil => simp [lookupKey]
  | cons kv rest ih =>
    simp only [List.map_cons, lookupKey]
    by_cases h : kv.1 = k
    · subst h; simp
    · simp [h, ih]

theorem pair_eta_map (m : List (String × User)) : m.map (fun kv => (kv.1, kv.2)) = m := by
  induction m with
  | nil => rfl
  | cons kv rest ih => simp [ih]

theorem applyRemote_cons (u : User) (k : String) (r : RemoteUser) (rs : List RemoteUser) :
    applyRemote u k (r :: rs) =
      applyRemote (if r.externalSystemId = k then { u with id := some r.id } else u) k rs :=
  rfl

theorem classifyUsers_eq_map (batch : List User) (remote : List RemoteUser) :
    classifyUsers batch remote =
      (buildUserMap batch).map (fun kv => (kv.1, applyRemote kv.2 kv.1 remote)) := by
  suffices haux : ∀ (m : List (String × User)),
      remote.foldl setRemoteId m = m.map (fun kv => (kv.1, applyRemote kv.2 kv.1 remote)) from
    haux (buildUserMap batch)
  induction remote with
  | nil =>
    intro m
    simp only [List.foldl_nil, applyRemote, pair_eta_map]
  | cons r rs ih =>
    intro m
    simp only [List.foldl_cons]
    rw [show setRemoteId m r =
        m.map (fun kv =>
          if kv.1 = r.externalSystemId then (kv.1, { kv.2 with id := some r.id }) else kv)
      from rfl, ih, List.map_map]
    congr 1
    funext kv
    by_cases h : kv.1 = r.externalSystemId
    · simp [Function.comp, h, applyRemote_cons]
    · have h2 : ¬r.externalSystemId = kv.1 := fun he => h he.symm
      simp [Function.comp, h, h2, applyRemote_cons]

theorem applyRemote_eq (k : String) (remote : List RemoteUser) :
    ∀ u : User,
      applyRemote u k remote =
        match lastWhere (fun r => decide (r.externalSystemId = k)) remote with
        | some r => { u with id := some r.id }
        | none => u := by
  induction remote with
  | nil => intro u; simp [applyRemote, lastWhere]
  | cons r rs ih =>
    intro u
    rw [applyRemote_cons, ih]
    simp only [lastWhere]
    cases hlw : lastWhere (fun r => decide (r.externalSystemId = k)) rs with
    | some r2 => by_cases h : r.externalSystemId = k <;> simp [h]
    | none => by_cases h : r.externalSystemId = k <;> simp [h]

theorem lastWhere_mem (p : α → Bool) :
    ∀ (l : List α) (r : α), lastWhere p l = some r → r ∈ l ∧ p r = true := by
  intro l
  induction l with
  | nil => intro r h; simp [lastWhere] at h
  | cons x t ih =>
    intro r h
    simp only [lastWhere] at h
    cases hlw : lastWhere p t with
    | some r2 =>
      rw [hlw] at h
      injection h with h2
      subst h2
      obtain ⟨hm, hp⟩ := ih _ hlw
      exact ⟨List.mem_cons_of_mem _ hm, hp⟩
    | none =>
      rw [hlw] at h
      by_cases hp : p x
      · rw [if_pos hp] at h
        injection h with h2
        subst h2
        exact ⟨List.mem_cons_self _ _, hp⟩
      · rw [if_neg hp] at h
        cases h

theorem lastWhere_eq_none (p : α → Bool) :
    ∀ (l : List α), lastWhere p l = none ↔ ∀ x ∈ l, p x = false := by
  intro l
  induction l with
  | nil => simp [lastWhere]
  | cons x t ih =>
    simp only [lastWhere]
    cases hlw : lastWhere p t with
    | some r =>
      simp only [List.mem_cons]
      constructor
      · intro h; cases h
      · intro h
        have hnone : lastWhere p t = none :=
          (ih).mpr (fun y hy => h y (Or.inr hy))
        rw [hlw] at hnone
        cases hnone
    | none =>
      by_cases hp : p x
      · simp [hp]
      · simp only [if_neg hp, List.mem_cons]
        constructor
        · intro _ y hy
          rcases hy with hy | hy
          · subst hy; exact Bool.eq_false_iff.mpr hp
          · exact (ih.mp hlw) y hy
        · intro _; trivial

theorem jsObjectSet_append (m : List (String × User)) (k : String) (v : User)
    (h : k ∉ m.map (fun kv => kv.1)) : jsObjectSet m k v = m ++ [(k, v)] := by
  induction m with
  | nil => rfl
  | cons kv rest ih =>
    simp only [List.map_cons, List.mem_cons] at h
    push_neg at h
    simp only [jsObjectSet]
    rw [if_neg (fun he => h.1 he.symm), ih h.2]
    rfl

theorem buildUserMap_of_nodup :
    ∀ (l : List User), (l.map (fun u => u.externalSystemId)).Nodup →
      buildUserMap l = l.map (fun u => (u.externalSystemId, u)) := by
  suffices haux : ∀ (l : List User) (acc : List (String × User)),
      (∀ u ∈ l, u.externalSystemId ∉ acc.map (fun kv => kv.1)) →
      (l.map (fun u => u.externalSystemId)).Nodup →
      l.foldl (fun m u => jsObjectSet m u.externalSystemId u) acc =
        acc ++ l.map (fun u => (u.externalSystemId, u)) by
    intro l h
    simpa using haux l [] (by simp) h
  intro l
  induction l with
  | nil => intro acc _ _; simp
  | cons u t ih =>
    intro acc hdisj hnd
    simp only [List.map_cons, List.nodup_cons] at hnd
    simp only [List.foldl_cons]
    rw [jsObjectSet_append acc u.externalSystemId u (hdisj u (List.mem_cons_self _ _))]
    have hdisj2 : ∀ v ∈ t,
        v.externalSystemId ∉ (acc ++ [(u.externalSystemId, u)]).map (fun kv => kv.1) := by
      intro v hv
      simp only [List.map_append, List.mem_append, List.map_cons, List.map_nil,
        List.mem_singleton]
      rintro (hin | hin)
      · exact hdisj v (List.mem_cons_of_mem _ hv) hin
      · exact hnd.1 (hin ▸ List.mem_map_of_mem (fun w => w.externalSystemId) hv)
    rw [ih (acc ++ [(u.externalSystemId, u)]) hdisj2 hnd.2]
    simp

theorem applyRemote_filter (k : String) (P : RemoteUser → Bool) :
    ∀ (remote : List RemoteUser),
      (∀ r ∈ remote, r.externalSystemId = k → P r = true) →
      ∀ u, applyRemote u k (remote.filter P) = applyRemote u k remote := by
  intro remote
  induction remote with
  | nil => intro _ u; rfl
  | cons r rs ih =>
    intro h u
    have hrs : ∀ r2 ∈ rs, r2.externalSystemId = k → P r2 = true :=
      fun r2 h2 => h r2 (List.mem_cons_of_mem _ h2)
    by_cases hP : P r = true
    · rw [List.filter_cons_of_pos hP, applyRemote_cons, applyRemote_cons]
      exact ih hrs _
    · have hrk : r.externalSystemId ≠ k :=
        fun he => hP (h r (List.mem_cons_self _ _) he)
      rw [List.filter_cons_of_neg (by simpa using hP), applyRemote_cons, if_neg hrk]
      exact ih hrs u

theorem classifyUsers_of_nodup (batch : List User) (remote : List RemoteUser)
    (hnodup : (batch.map (fun u => u.externalSystemId)).Nodup) :
    classifyUsers batch remote =
      batch.map (fun u => (u.externalSystemId, applyRemote u u.externalSystemId remote)) := by
  rw [classifyUsers_eq_map, buildUserMap_of_nodup batch hnodup, List.map_map]
  rfl

/-- C7: for a batch with pairwise distinct external identifiers whose records
carry no pre-set id, and a remote response whose records carry nonempty ids,
the map importUsers dispatches from classifies every batch record matched by
some remote record as an update carrying that remote records id, classifies
every unmatched record as a create, and does not change at all when the
remote records matching no batch record are removed. -/
theorem reconcile_correct (batch : List User) (remote : List RemoteUser)
    (hnodup : (batch.map (fun u => u.externalSystemId)).Nodup)
    (hids : ∀ u ∈ batch, u.id = none)
    (hrids : ∀ r ∈ remote, r.id ≠ "") :
    (∀ u ∈ batch,
        (∃ r ∈ remote, r.externalSystemId = u.externalSystemId) →
          ∃ r ∈ remote, r.externalSystemId = u.externalSystemId ∧
            (u.externalSystemId, { u with id := some r.id }) ∈ classifyUsers batch remote ∧
            truthy (some r.id) = true) ∧
    (∀ u ∈ batch,
        (∀ r ∈ remote, r.externalSystemId ≠ u.externalSystemId) →
          (u.externalSystemId, u) ∈ classifyUsers batch remote ∧ truthy u.id = false) ∧
    classifyUsers batch remote =
      classifyUsers batch (remote.filter
        (fun r => batch.any (fun v => decide (v.externalSystemId = r.externalSystemId)))) := by
  have hclass := classifyUsers_of_nodup batch remote hnodup
  refine ⟨?_, ?_, ?_⟩
  · intro u hu hmatch
    obtain ⟨r0, hr0, hext0⟩ := hmatch
    cases hlw : lastWhere (fun r => decide (r.externalSystemId = u.externalSystemId)) remote with
    | none =>
      exact absurd (of_decide_eq_false ((lastWhere_eq_none _ remote).mp hlw r0 hr0)) (by
        intro hne
        exact hne hext0)
    | some r =>
      obtain ⟨hrmem, hrp⟩ := lastWhere_mem _ remote r hlw
      have hrext : r.externalSystemId = u.externalSystemId := of_decide_eq_true hrp
      refine ⟨r, hrmem, hrext, ?_, ?_⟩
      · rw [hclass]
        have hval : applyRemote u u.externalSystemId remote = { u with id := some r.id } := by
          rw [applyRemote_eq, hlw]
        exact List.mem_map.mpr ⟨u, hu, by simp [hval]⟩
      · have := hrids r hrmem
        simp [truthy, this]
  · intro u hu hno
    constructor
    · rw [hclass]
      have hlw : lastWhere (fun r => decide (r.externalSystemId = u.externalSystemId)) remote
          = none :=
        (lastWhere_eq_none _ remote).mpr
          (fun r hr => decide_eq_false (hno r hr))
      have hval : applyRemote u u.externalSystemId remote = u := by
        rw [applyRemote_eq, hlw]
      exact List.mem_map.mpr ⟨u, hu, by simp [hval]⟩
    · rw [hids u hu]
      rfl
  · rw [hclass, classifyUsers_of_nodup batch _ hnodup]
    apply mapCongrMem
    intro u hu
    have hfilter := applyRemote_filter u.externalSystemId
      (fun r => batch.any (fun v => decide (v.externalSystemId = r.externalSystemId)))
      remote
      (fun r _ hre => List.any_eq_true.mpr ⟨u, hu, by simp [hre]⟩)
    rw [hfilter u]

/-- Witness for C7 with batch identifiers e1, e2, e3 and remote identifiers
e2 (matched) and zz (ignored). -/
theorem reconcile_correct_witness :
    ((([aliceUser, bobUser, carolUser] : List User).map
        (fun u => u.externalSystemId)).Nodup ∧
      (∀ u ∈ ([aliceUser, bobUser, carolUser] : List User), u.id = none) ∧
      (∀ r ∈ ([⟨"e2", "rid-b"⟩, ⟨"zz", "rid-d"⟩] : List RemoteUser), r.id ≠ "")) ∧
    ((∀ u ∈ ([aliceUser, bobUser, carolUser] : List User),
        (∃ r ∈ ([⟨"e2", "rid-b"⟩, ⟨"zz", "rid-d"⟩] : List RemoteUser),
            r.externalSystemId = u.externalSystemId) →
          ∃ r ∈ ([⟨"e2", "rid-b"⟩, ⟨"zz", "rid-d"⟩] : List RemoteUser),
            r.externalSystemId = u.externalSystemId ∧
            (u.externalSystemId, { u with id := some r.id }) ∈
              classifyUsers [aliceUser, bobUser, carolUser] [⟨"e2", "rid-b"⟩, ⟨"zz", "rid-d"⟩] ∧
            truthy (some r.id) = true) ∧
      (∀ u ∈ ([aliceUser, bobUser, carolUser] : List User),
        (∀ r ∈ ([⟨"e2", "rid-b"⟩, ⟨"zz", "rid-d"⟩] : List RemoteUser),
            r.externalSystemId ≠ u.externalSystemId) →
          (u.externalSystemId, u) ∈
              classifyUsers [aliceUser, bobUser, carolUser] [⟨"e2", "rid-b"⟩, ⟨"zz", "rid-d"⟩] ∧
            truthy u.id = false) ∧
      classifyUsers [aliceUser, bobUser, carolUser] [⟨"e2", "rid-b"⟩, ⟨"zz", "rid-d"⟩] =
        classifyUsers [aliceUser, bobUser, carolUser]
          (([⟨"e2", "rid-b"⟩, ⟨"zz", "rid-d"⟩] : List RemoteUser).filter
            (fun r => ([aliceUser, bobUser, carolUser] : List User).any
              (fun v => decide (v.externalSystemId = r.externalSystemId))))) :=
  ⟨⟨by decide, by decide, by decide⟩,
    reconcile_correct [aliceUser, bobUser, carolUser] [⟨"e2", "rid-b"⟩, ⟨"zz", "rid-d"⟩]
      (by decide) (by decide) (by decide)⟩

/-- C10: the map importUsers builds and dispatches from has pairwise distinct
externalSystemId keys, and the value dispatched for a key is exactly the
last batch record carrying that externalSystemId (with the remote id
assignments applied), so when two records of one batch share an external
identifier only the later one is submitted and the earlier one is dropped
with no outcome and no create or update call of its own. -/
theorem duplicate_externalId_last_wins (batch : List User) (remote : List RemoteUser) :
    ((classifyUsers batch remote).map (fun kv => kv.1)).Nodup ∧
    ∀ k, lookupKey (classifyUsers batch remote) k =
      (lastWhere (fun u => decide (u.externalSystemId = k)) batch).map
        (fun u => applyRemote u k remote) := by
  constructor
  · rw [classifyUsers_eq_map, List.map_map]
    exact keys_nodup_buildUserMap batch
  · intro k
    rw [classifyUsers_eq_map,
      lookupKey_mapValues (buildUserMap batch) (fun k2 u => applyRemote u k2 remote) k,
      lookupKey_buildUserMap]

/-! Compensating creator and run driver (claims C1 to C4). -/

/-- C1 counterexample: with create and credential success, permission failure
and successful rollback deletes, the per-record outcome is reported as
success (the callback is invoked with no error) and the only failure marking
(the logger.warn of line 999) precedes both delete calls, so there is no
credential-delete followed by a record-delete followed by a Failed marking
anywhere in the trace. -/
theorem rollback_not_before_failed_marking :
    (createUserRun [] [] permsFailEnv aliceUser).2 = Res.ok ∧
    ¬ ∃ (i j k : Fin (createUserRun [] [] permsFailEnv aliceUser).1.length),
        (i : Nat) < (j : Nat) ∧ (j : Nat) < (k : Nat) ∧
        isCallDeleteCred ((createUserRun [] [] permsFailEnv aliceUser).1.get i) = true ∧
        isCallDeleteUser ((createUserRun [] [] permsFailEnv aliceUser).1.get j) = true ∧
        isWarnFailed ((createUserRun [] [] permsFailEnv aliceUser).1.get k) = true := by
  decide

/-- C1 amended: on permission failure after create and credential success the
pipeline marks the failure first (logger.warn), then issues the
credential-delete call and, provided the credential-delete succeeds, the
record-delete call, in that order; when the record-delete also succeeds the
record callback reports success, not Failed. -/
theorem rollback_order_on_perms_failure (tA tP : Table) (e : RecordEnv) (u : User)
    (h1 : statusFail e.createStatus = false) (h2 : statusFail e.credStatus = false)
    (h3 : statusFail e.permsStatus = true) (h4 : statusFail e.delCredStatus = false) :
    ∃ pre post,
      (createUserRun tA tP e u).1 =
        pre ++ Ev.callDeleteCred u.username :: Ev.callDeleteUser e.newId :: post ∧
      Ev.warnFailed "permissions" ∈ pre ∧
      (statusFail e.delUserStatus = false → (createUserRun tA tP e u).2 = Res.ok) := by
  rcases Bool.dichotomy (statusFail e.delUserStatus) with hd | hd
  · refine ⟨[Ev.callCreateUser e.newId, Ev.callCreateCred u.username,
      Ev.callApplyPerms u.username, Ev.warnFailed "permissions"], [], ?_, by simp, by
        intro _
        simp [createUserRun, createCredentialsRun, applyEmptyPermissionSetRun,
          removeUserCredentialsRun, deleteUserRun, h1, h2, h3, h4, hd]⟩
    simp [createUserRun, createCredentialsRun, applyEmptyPermissionSetRun,
      removeUserCredentialsRun, deleteUserRun, idPathOf, mapUserData, h1, h2, h3, h4, hd]
  · refine ⟨[Ev.callCreateUser e.newId, Ev.callCreateCred u.username,
      Ev.callApplyPerms u.username, Ev.warnFailed "permissions"],
      [Ev.warnFailed "deleteUser"], ?_, by simp, by
        intro hcontra
        simp [hd] at hcontra⟩
    simp [createUserRun, createCredentialsRun, applyEmptyPermissionSetRun,
      removeUserCredentialsRun, deleteUserRun, idPathOf, mapUserData, h1, h2, h3, h4, hd]

/-- Witness for the amended C1 on a concrete record and environment. -/
theorem rollback_order_on_perms_failure_witness :
    (statusFail permsFailEnv.createStatus = false ∧
      statusFail permsFailEnv.credStatus = false ∧
      statusFail permsFailEnv.permsStatus = true ∧
      statusFail permsFailEnv.delCredStatus = false) ∧
    (∃ pre post,
      (createUserRun [] [] permsFailEnv aliceUser).1 =
        pre ++ Ev.callDeleteCred aliceUser.username ::
          Ev.callDeleteUser permsFailEnv.newId :: post ∧
      Ev.warnFailed "permissions" ∈ pre ∧
      (statusFail permsFailEnv.delUserStatus = false →
        (createUserRun [] [] permsFailEnv aliceUser).2 = Res.ok)) :=
  ⟨⟨by decide, by decide, by decide, by decide⟩,
    rollback_order_on_perms_failure [] [] permsFailEnv aliceUser
      (by decide) (by decide) (by decide) (by decide)⟩

/-- C2: with create success and credential failure, the source calls
deleteUser with only the callback (line 964), so the one delete-record call
is addressed at /users/undefined rather than at the generated id id-1, and
the subsequent invocation of the undefined callback kills the process
instead of yielding a Failed outcome. -/
theorem credential_failure_rollback_misaddressed :
    createUserRun [] [] credFailEnv aliceUser =
      ([Ev.callCreateUser "id-1", Ev.callCreateCred "alice", Ev.warnFailed "credentials",
        Ev.callDeleteUser "undefined"], Res.crash) ∧
    (createUserRun [] [] credFailEnv aliceUser).1.filter isCallDeleteUser =
      [Ev.callDeleteUser "undefined"] := by
  decide

/-- C3: in a three-record batch whose second record fails a compensation
step the sibling records do complete, but the failure is not confined to
that record: a credential-creation failure crashes the whole process via the
deleteUser arity bug (first conjunct), and a permission failure whose
record-delete rollback fails propagates the error through the async
callbacks so that the following batch is never processed (second conjunct);
in both runs the second batch receives no outcome at all. -/
theorem compensation_failure_aborts_run :
    runAll [] [] [(isolationBatch1Env, [aliceUser, bobUser, carolUser]),
        (secondBatchEnv, [daveUser])] =
      [BatchReport.done [
        ("e1", ([Ev.callCreateUser "id-1", Ev.callCreateCred "alice",
          Ev.callApplyPerms "alice"], Res.ok)),
        ("e2", ([Ev.callCreateUser "id-2", Ev.callCreateCred "bob",
          Ev.warnFailed "credentials", Ev.callDeleteUser "undefined"], Res.crash)),
        ("e3", ([Ev.callCreateUser "id-3", Ev.callCreateCred "carol",
          Ev.callApplyPerms "carol"], Res.ok))]] ∧
    runAll [] [] [(isolation2Batch1Env, [aliceUser, bobUser, carolUser]),
        (secondBatchEnv, [daveUser])] =
      [BatchReport.done [
        ("e1", ([Ev.callCreateUser "id-1", Ev.callCreateCred "alice",
          Ev.callApplyPerms "alice"], Res.ok)),
        ("e2", ([Ev.callCreateUser "id-2", Ev.callCreateCred "bob",
          Ev.callApplyPerms "bob", Ev.warnFailed "permissions",
          Ev.callDeleteCred "bob", Ev.callDeleteUser "id-2",
          Ev.warnFailed "deleteUser"], Res.err)),
        ("e3", ([Ev.callCreateUser "id-3", Ev.callCreateCred "carol",
          Ev.callApplyPerms "carol"], Res.ok))]] := by
  decide

/-- C4 counterexample: a parse failure of the user search response of the
first batch leaves the run with only a parse-failed report: the second batch
is never processed, so records of other batches are affected. -/
theorem parse_failure_not_batch_isolated :
    runAll [] [] [(parseFailBatchEnv, [aliceUser, bobUser]),
        (secondBatchEnv, [daveUser])] =
      [BatchReport.parseFailed [aliceUser, bobUser]] ∧
    ∀ rep ∈ runAll [] [] [(parseFailBatchEnv, [aliceUser, bobUser]),
        (secondBatchEnv, [daveUser])],
      isDoneReport rep = false := by
  decide

/-- C4 amended: a reconciliation parse failure is batch- and run-fatal: the
failing batch produces no per-record outcome (the batch as a whole is
reported failed) and no later batch is processed, while batches before the
failing one keep their reports untouched. -/
theorem parse_failure_batch_and_run_fatal (tA tP : Table) (be : BatchEnv) (b : List User)
    (rest : List (BatchEnv × List User)) (h : be.searchParse = none)
    (be0 : BatchEnv) (b0 : List User) (res0 : List (String × (List Ev × Res)))
    (h0 : processBatch tA tP be0 b0 = some res0)
    (h1 : hasRes Res.crash res0 = false) (h2 : hasRes Res.err res0 = false) :
    runAll tA tP ((be, b) :: rest) = [BatchReport.parseFailed b] ∧
    runAll tA tP ((be0, b0) :: (be, b) :: rest) =
      [BatchReport.done res0, BatchReport.parseFailed b] := by
  have hpb : processBatch tA tP be b = none := by
    simp [processBatch, h]
  have hfirst : runAll tA tP ((be, b) :: rest) = [BatchReport.parseFailed b] := by
    unfold runAll
    rw [hpb]
  refine ⟨hfirst, ?_⟩
  unfold runAll
  rw [h0]
  simp [h1, h2, hfirst]

/-- Witness for the amended C4 on concrete batches. -/
theorem parse_failure_batch_and_run_fatal_witness :
    (parseFailBatchEnv.searchParse = none ∧
      processBatch [] [] secondBatchEnv [daveUser] =
        some [("e4", ([Ev.callCreateUser "id-4", Ev.callCreateCred "dave",
          Ev.callApplyPerms "dave"], Res.ok))] ∧
      hasRes Res.crash [("e4", ([Ev.callCreateUser "id-4", Ev.callCreateCred "dave",
          Ev.callApplyPerms "dave"], Res.ok))] = false ∧
      hasRes Res.err [("e4", ([Ev.callCreateUser "id-4", Ev.callCreateCred "dave",
          Ev.callApplyPerms "dave"], Res.ok))] = false) ∧
    (runAll [] [] [(parseFailBatchEnv, [aliceUser, bobUser])] =
        [BatchReport.parseFailed [aliceUser, bobUser]] ∧
      runAll [] [] [(secondBatchEnv, [daveUser]), (parseFailBatchEnv, [aliceUser, bobUser])] =
        [BatchReport.done [("e4", ([Ev.callCreateUser "id-4", Ev.callCreateCred "dave",
          Ev.callApplyPerms "dave"], Res.ok))],
          BatchReport.parseFailed [aliceUser, bobUser]]) :=
  ⟨⟨rfl, by decide, by decide, by decide⟩,
    parse_failure_batch_and_run_fatal [] [] parseFailBatchEnv [aliceUser, bobUser] []
      rfl secondBatchEnv [daveUser] _ (by decide) (by decide) (by decide)⟩

end FolioUserImport
